import Mathlib

set_option maxRecDepth 8000

/-!
Shallow embedding of the bus / PPI / interrupt-mediation / scheduler core of
the z180-mini-itx emulator, translated from the C source.  Machine bytes and
addresses are `Nat` with explicit masking where the C relies on fixed-width
arithmetic.
-/

/-- The mutable machine state touched by the bus and PPI code: the two memory
arrays (`static uint8_t ram[1024*1024]`, `static uint8_t rom[512*1024]`,
modelled as functions), the four 82C55 latches (`port_a`, `port_b`, `port_c`,
`port_ctl`), the chip-select cache (`static unsigned int old_cs` inside
`ppi_recalc`) and whether an SD card is attached (`sdcard != NULL`). -/
structure Machine where
  ram : Nat → Nat
  rom : Nat → Nat
  port_a : Nat
  port_b : Nat
  port_c : Nat
  port_ctl : Nat
  old_cs : Nat
  sdcard : Bool

/-- Pointwise array update, modelling `a[i] = v`. -/
def updMem (f : Nat → Nat) (a v : Nat) : Nat → Nat :=
  fun x => if x = a then v else f x

/-- Source `z180_phys_read`: physical bus read.  `addr & 0x80000` selects the
extended half, gated by port A bit 2 (extended memory enable); otherwise
port A bit 3 (ROM enable) selects ROM — note the source masks the ROM index
with `0x3FFFF` — else RAM. -/
def z180_phys_read (m : Machine) (addr : Nat) : Nat :=
  if addr &&& 0x80000 ≠ 0 then
    if m.port_a &&& 0x04 ≠ 0 then m.ram (addr &&& 0xFFFFF) else 0xFF
  else
    if m.port_a &&& 0x08 ≠ 0 then m.rom (addr &&& 0x3FFFF)
    else m.ram (addr &&& 0xFFFFF)

/-- Source `z180_phys_write`: physical bus write.  The address is first masked to
20 bits; a write to disabled extended memory or to enabled ROM is discarded
(the ROM case only prints a diagnostic). -/
def z180_phys_write (m : Machine) (addr val : Nat) : Machine :=
  let a := addr &&& 0xFFFFF
  if a &&& 0x80000 ≠ 0 then
    if m.port_a &&& 0x04 ≠ 0 then { m with ram := updMem m.ram a val } else m
  else
    if m.port_a &&& 0x08 ≠ 0 then m
    else { m with ram := updMem m.ram a val }

/-- Chip-select transition events fired towards the SD card
(`sd_spi_lower_cs` / `sd_spi_raise_cs`). -/
inductive CSEvent
  | lower
  | raise
deriving DecidableEq

/-- Source `ppi_recalc`: compare the low 3 bits of port C with the cached select
value; on a change (and only with an SD card attached) fire `raise` when the
old value was 0, `lower` when the new value is 0, and update the cache. -/
def ppi_recalc (m : Machine) : Machine × List CSEvent :=
  let new_cs := m.port_c &&& 7
  if m.sdcard = true ∧ new_cs ≠ m.old_cs then
    if m.old_cs = 0 then ({ m with old_cs := new_cs }, [CSEvent.raise])
    else if new_cs = 0 then ({ m with old_cs := new_cs }, [CSEvent.lower])
    else ({ m with old_cs := new_cs }, [])
  else (m, [])

/-- Source `ppi_read`: 82C55 register read; input-configured ports read as 0xFF,
port C honours the two per-nibble direction bits. -/
def ppi_read (m : Machine) (addr : Nat) : Nat :=
  match addr with
  | 0 => if m.port_ctl &&& 0x10 ≠ 0 then 0xFF else m.port_a
  | 1 => if m.port_ctl &&& 0x02 ≠ 0 then 0xFF else m.port_b
  | 2 =>
      let r := if m.port_ctl &&& 0x01 ≠ 0 then 0x0F else m.port_c &&& 0x0F
      if m.port_ctl &&& 0x08 ≠ 0 then r ||| 0xF0 else r ||| (m.port_c &&& 0xF0)
  | 3 => m.port_ctl
  | _ => 0xFF

/-- Source `ppi_write`: 82C55 register write.  Sub-addresses 0..2 store into the
port latches; sub-address 3 either replaces the control register (value bit 7
set) or performs the single-bit set/reset command on port C (bits 3:1 of the
value are the bit index, bit 0 the stored bit).  Every write ends with
`ppi_recalc()`. -/
def ppi_write (m : Machine) (addr val : Nat) : Machine × List CSEvent :=
  let m' : Machine :=
    match addr with
    | 0 => { m with port_a := val }
    | 1 => { m with port_b := val }
    | 2 => { m with port_c := val }
    | 3 =>
        if val &&& 0x80 ≠ 0 then { m with port_ctl := val }
        else
          let bit := val &&& 1
          let idx := (val >>> 1) &&& 0x07
          let pc := m.port_c &&& (0xFF ^^^ (1 <<< idx))
          { m with port_c := if bit ≠ 0 then pc ||| (1 <<< idx) else pc }
    | _ => m
  ppi_recalc m'

/-- External handlers consulted by the I/O dispatcher: the Z180 internal
controller claim predicate (`z180_iospace`) and its read, the IDE flag
(`ide == 1`) and read, and the FDC read. -/
structure IOEnv where
  z180_claimed : Nat → Bool
  z180_read : Nat → Nat
  ide_on : Bool
  ide_read : Nat → Nat
  fdc_read : Nat → Nat

/-- Source `io_read`: port-read dispatch.  After the controller claim check the
address is masked to 8 bits and matched, in source order, against the IDE
window (0x10..0x17, only when IDE is configured), the FDC window (note the
source tests `addr >= 0x70 && addr < 0x77`), the PPI window (0x78..0x7F),
and finally the unmapped fallback returning 0xFF. -/
def io_read (env : IOEnv) (m : Machine) (addr : Nat) : Nat :=
  if env.z180_claimed addr then env.z180_read addr
  else
    let a := addr &&& 0xFF
    if 0x10 ≤ a ∧ a ≤ 0x17 ∧ env.ide_on = true then env.ide_read (a &&& 7)
    else if 0x70 ≤ a ∧ a < 0x77 then env.fdc_read (a &&& 7)
    else if 0x78 ≤ a ∧ a ≤ 0x7F then ppi_read m (a &&& 3)
    else 0xFF

/-- The destination a port write is routed to by `io_write`. -/
inductive WTarget
  | z180
  | ide (sub : Nat)
  | fdc (sub : Nat)
  | ppi (sub : Nat)
  | diag
  | traceLo
  | traceHi
  | unknown
deriving DecidableEq

/-- Source `io_write` dispatch: controller claim first, then (8-bit masked, in
source order) IDE 0x10..0x17 when configured, FDC `addr >= 0x70 && addr <
0x78`, PPI 0x78..0x7F, the diagnostic port 0x0D, the two trace-configuration
ports 0xFD/0xFE, else the unmapped fallback. -/
def io_write_route (env : IOEnv) (addr : Nat) : WTarget :=
  if env.z180_claimed addr then WTarget.z180
  else
    let a := addr &&& 0xFF
    if 0x10 ≤ a ∧ a ≤ 0x17 ∧ env.ide_on = true then WTarget.ide (a &&& 7)
    else if 0x70 ≤ a ∧ a < 0x78 then WTarget.fdc (a &&& 7)
    else if 0x78 ≤ a ∧ a ≤ 0x7F then WTarget.ppi (a &&& 3)
    else if a = 0x0D then WTarget.diag
    else if a = 0xFD then WTarget.traceLo
    else if a = 0xFE then WTarget.traceHi
    else WTarget.unknown

/-- Interrupt-mediation state touched by `mem_read`: the fetch-sequence
detector (`static uint8_t rstate`), the live-interrupt flag (`live_irq`) and
a counter of `poll_irq_event()` invocations (the call into
`z180_interrupt`). -/
structure FetchState where
  rstate : Nat
  live_irq : Nat
  polls : Nat
deriving DecidableEq

/-- Source `reti_event`: clears `live_irq` and re-polls the interrupt controller
via `poll_irq_event()` (counted in `polls`). -/
def reti_event (s : FetchState) : FetchState :=
  { s with live_irq := 0, polls := s.polls + 1 }

/-- The body of `mem_read` acting on the detector state: with M1 set, a
DD/FD/CB prefix parks the detector in state 2 and an ED seen from state 0
arms it (state 1); otherwise a 0x4D read (of either fetch class) with the
detector armed fires `reti_event`, and the detector is reset to 0. -/
def mem_read_fsm (s : FetchState) (m1 : Bool) (r : Nat) : FetchState :=
  if m1 = true ∧ (r = 0xDD ∨ r = 0xFD ∨ r = 0xCB) then { s with rstate := 2 }
  else if m1 = true ∧ r = 0xED ∧ s.rstate = 0 then { s with rstate := 1 }
  else
    let s' := if r = 0x4D ∧ s.rstate = 1 then reti_event s else s
    { s' with rstate := 0 }

/-- Scheduler-visible interrupt state: the recalculation request flag
(`int_recalc`), the live-interrupt flag, the two CPU interrupt-enable flags
(`cpu_z180.IFF1` / `IFF2`) and the count of controller re-polls. -/
structure Sched where
  int_recalc : Bool
  live_irq : Bool
  iff1 : Bool
  iff2 : Bool
  polls : Nat
deriving DecidableEq

/-- The externally observable effect of one `Z180Execute` call on the
scheduler-visible flags: cycles consumed, whether some handler invoked
`recalc_interrupts()`, whether the instruction stream fired `reti_event`
(clearing `live_irq` and re-polling), and the IFF flags afterwards. -/
structure CpuStep where
  cycles : Nat
  setsRecalc : Bool
  reti : Bool
  iff1 : Bool
  iff2 : Bool
deriving DecidableEq

/-- One iteration of the inner cycle loop as seen from outside: the cycles
`z180_dma` reports, and the CPU effect used only if DMA reported zero. -/
structure ExtStep where
  dma : Nat
  cpu : CpuStep
deriving DecidableEq

/-- Apply a CPU step's effect to the scheduler-visible flags. -/
def applyCpu (c : CpuStep) (s : Sched) : Sched :=
  let s1 := if c.setsRecalc then { s with int_recalc := true } else s
  let s2 := if c.reti then { s1 with live_irq := false, polls := s1.polls + 1 } else s1
  { s2 with iff1 := c.iff1, iff2 := c.iff2 }

/-- Source `static uint16_t tstate_steps = 737` — the minor-tick cycle quantum. -/
def tstate_steps : Nat := 737

/-- The `while (states < tstate_steps)` loop of `main`: offer cycles to the
DMA engine first, and only when it consumed zero execute one CPU
instruction; accumulate the cycles.  The external engines are an oracle
list; the loop stops when the quantum is met or the oracle is exhausted. -/
def runSlice : List ExtStep → Nat → Sched → Nat × Sched × List ExtStep
  | [], states, s => (states, s, [])
  | e :: rest, states, s =>
    if states < tstate_steps then
      if e.dma ≠ 0 then runSlice rest (states + e.dma) s
      else runSlice rest (states + e.cpu.cycles) (applyCpu e.cpu s)
    else (states, s, e :: rest)

/-- One iteration of the cycle loop, as recorded for analysis: the cycles
DMA consumed, whether the CPU ran, and the cycles it consumed. -/
structure TickIter where
  dmaUsed : Nat
  cpuRan : Bool
  cpuUsed : Nat
deriving DecidableEq

/-- The iteration trace of the `while (states < tstate_steps)` loop. -/
def runSliceTrace : List ExtStep → Nat → List TickIter
  | [], _ => []
  | e :: rest, states =>
    if states < tstate_steps then
      if e.dma ≠ 0 then ⟨e.dma, false, 0⟩ :: runSliceTrace rest (states + e.dma)
      else ⟨0, true, e.cpu.cycles⟩ :: runSliceTrace rest (states + e.cpu.cycles)
    else []

/-- One minor tick (`j` loop body of `main`): run the cycle loop, then
`z180_event` (whose only scheduler-visible effect can be an external
`recalc_interrupts` request, supplied by the oracle flag), then carry the
cycle surplus with `states -= tstate_steps`. -/
def minorTick (steps : List ExtStep) (evRecalc : Bool) (states : Nat) (s : Sched) :
    Nat × Sched × List ExtStep :=
  let r := runSlice steps states s
  let s' := if evRecalc then { r.2.1 with int_recalc := true } else r.2.1
  (r.1 - tstate_steps, s', r.2.2)

/-- The minor-tick phase of one outer iteration of `main`'s loop (the 50×10
minor ticks; `fdc_tick` touches none of the scheduler-visible flags). -/
def tickPhase : List (List ExtStep × Bool) → Nat → Sched → Nat × Sched
  | [], states, s => (states, s)
  | o :: rest, states, s =>
    let r := minorTick o.1 o.2 states s
    tickPhase rest r.1 r.2.1

/-- The `if (int_recalc)` block at the end of `main`'s outer loop: when the
flag is set, re-poll the controller unless an interrupt is live, then clear
the flag only if neither IFF1 nor IFF2 is set. -/
def recalcService (s : Sched) : Sched :=
  if s.int_recalc = true then
    let s1 := if s.live_irq = false then { s with polls := s.polls + 1 } else s
    if s1.iff1 = false ∧ s1.iff2 = false then { s1 with int_recalc := false } else s1
  else s

/-- One full outer iteration ("major tick") of `main`'s loop: the minor-tick
phase, the pacing sleep (no flag effect), then the recalculation service. -/
def majorTick (oracles : List (List ExtStep × Bool)) (states : Nat) (s : Sched) :
    Nat × Sched :=
  let r := tickPhase oracles states s
  (r.1, recalcService r.2)

/-- The machine state as established at startup: RAM pseudo-random (a
parameter here), ROM loaded from the 512 KiB image, the 82C55 latches at
their C initialisers (`port_a = port_b = port_c = 0xFF`, `port_ctl = 0x9B`),
the chip-select cache at its initialiser 7. -/
def initialMachine (ramInit romImage : Nat → Nat) (sd : Bool) : Machine :=
  { ram := ramInit, rom := romImage, port_a := 0xFF, port_b := 0xFF,
    port_c := 0xFF, port_ctl := 0x9B, old_cs := 7, sdcard := sd }

/-- All-zero memory, used for concrete sample machines. -/
def zeroMem : Nat → Nat := fun _ => 0

/-- A ROM image that distinguishes offset 0x40000 from offset 0. -/
def markedRom : Nat → Nat := fun a => if a = 0x40000 then 0xAB else 0x00

/-- Sample machine for the ROM-mask evaluation: ROM enabled (port A reset
value 0xFF has bit 3 set), ROM image `markedRom`. -/
def romBugMachine : Machine := initialMachine zeroMem markedRom false

/-- Sample environment for the port-dispatch evaluation: nothing claimed by
the internal controller, no IDE, FDC reads return 0x42. -/
def fdcEnv : IOEnv :=
  { z180_claimed := fun _ => false, z180_read := fun _ => 0,
    ide_on := false, ide_read := fun _ => 0, fdc_read := fun _ => 0x42 }

/-- Sample machine with all-zero memories and the startup register values. -/
def plainMachine : Machine := initialMachine zeroMem zeroMem false

/-- A CPU step with no scheduler-visible effect. -/
def cpuNop : CpuStep := ⟨0, false, false, false, false⟩

/-- An oracle step in which the DMA engine consumes a full quantum. -/
def dmaOnlyStep : ExtStep := ⟨737, cpuNop⟩

/-! ## Memory and port-dispatch theorems -/

/-- C2: for every 20-bit physical address with bit 19 set, when the
extended-memory-enable bit (port A bit 2) is clear, `z180_phys_read` returns
0xFF and `z180_phys_write` is a no-op, so a read after any write attempt is
unchanged. -/
theorem extmem_disabled_read_ff_write_noop (m : Machine) (addr val : Nat)
    (_h20 : addr < 2 ^ 20) (h19 : addr &&& 0x80000 ≠ 0)
    (hext : m.port_a &&& 0x04 = 0) :
    z180_phys_read m addr = 0xFF ∧
    z180_phys_write m addr val = m ∧
    z180_phys_read (z180_phys_write m addr val) addr = z180_phys_read m addr := by
  have hm : (0xFFFFF : Nat) &&& 0x80000 = 0x80000 := by decide
  have hmask : (addr &&& 0xFFFFF) &&& 0x80000 = addr &&& 0x80000 := by
    rw [Nat.and_assoc, hm]
  have hw : z180_phys_write m addr val = m := by
    simp only [z180_phys_write, hmask]
    rw [if_pos h19, if_neg (by simp [hext])]
  refine ⟨?_, hw, by rw [hw]⟩
  simp only [z180_phys_read]
  rw [if_pos h19, if_neg (by simp [hext])]

/-- C2 witness: concrete instance at address 0x80000 with port A bit 2
clear. -/
theorem extmem_disabled_witness :
    (0x80000 : Nat) < 2 ^ 20 ∧
    z180_phys_read (initialMachine zeroMem zeroMem false) 0x80000 ≠ 0xFF ∧
    z180_phys_read { plainMachine with port_a := 0xFB } 0x80000 = 0xFF ∧
    z180_phys_write { plainMachine with port_a := 0xFB } 0x80000 5 =
      { plainMachine with port_a := 0xFB } :=
  ⟨by decide, by decide,
    (extmem_disabled_read_ff_write_noop { plainMachine with port_a := 0xFB }
      0x80000 5 (by decide) (by decide) (by decide)).1,
    (extmem_disabled_read_ff_write_noop { plainMachine with port_a := 0xFB }
      0x80000 5 (by decide) (by decide) (by decide)).2.1⟩

/-- C9: at startup the PPI latches hold A = B = C = 0xFF and control = 0x9B,
so the ROM-enable bit (port A bit 3) and the extended-memory-enable bit
(port A bit 2) are both set, and from the first access the base half reads
ROM while the extended half reads RAM. -/
theorem startup_defaults_and_first_access (ramInit romImage : Nat → Nat)
    (sd : Bool) (addr : Nat) :
    (initialMachine ramInit romImage sd).port_a = 0xFF ∧
    (initialMachine ramInit romImage sd).port_b = 0xFF ∧
    (initialMachine ramInit romImage sd).port_c = 0xFF ∧
    (initialMachine ramInit romImage sd).port_ctl = 0x9B ∧
    Nat.testBit (initialMachine ramInit romImage sd).port_a 3 = true ∧
    Nat.testBit (initialMachine ramInit romImage sd).port_a 2 = true ∧
    (addr &&& 0x80000 = 0 →
      z180_phys_read (initialMachine ramInit romImage sd) addr =
        romImage (addr &&& 0x3FFFF)) ∧
    (addr &&& 0x80000 ≠ 0 →
      z180_phys_read (initialMachine ramInit romImage sd) addr =
        ramInit (addr &&& 0xFFFFF)) := by
  have hb3 : Nat.testBit 0xFF 3 = true := by decide
  have hb2 : Nat.testBit 0xFF 2 = true := by decide
  refine ⟨rfl, rfl, rfl, rfl, hb3, hb2, ?_, ?_⟩ <;>
    intro h <;> simp [z180_phys_read, initialMachine, h]

/-- C9 witness: concrete first accesses on a machine whose ROM and RAM are
distinguishable. -/
theorem startup_defaults_witness :
    ((0 : Nat) &&& 0x80000 = 0 ∧
      z180_phys_read (initialMachine zeroMem markedRom false) 0 = markedRom 0) ∧
    ((0x80000 : Nat) &&& 0x80000 ≠ 0 ∧
      z180_phys_read (initialMachine zeroMem markedRom false) 0x80000 =
        zeroMem 0x80000) :=
  ⟨⟨by decide,
      (startup_defaults_and_first_access zeroMem markedRom false 0).2.2.2.2.2.2.1
        (by decide)⟩,
    ⟨by decide,
      (startup_defaults_and_first_access zeroMem markedRom false 0x80000).2.2.2.2.2.2.2
        (by decide)⟩⟩

/-- C1 (code-bug evaluation): with ROM enabled, a read at physical address
0x40000 (bit 19 clear, bit 18 set) returns `rom[0x40000 & 0x3FFFF] = rom[0]`
because `z180_phys_read` masks the ROM index with 0x3FFFF (18 bits, 256 KiB)
— but the byte of the 512 KiB ROM at the address's 19-bit offset is
`rom[0x40000]`, which differs in this image. -/
theorem rom_read_mask_evaluation :
    z180_phys_read romBugMachine 0x40000 = 0x00 ∧
    romBugMachine.rom (0x40000 &&& 0x7FFFF) = 0xAB := by decide

/-- C5 (code-bug evaluation): with nothing controller-claimed and no IDE,
reads of ports 0x70..0x76 reach the FDC handler, but a read of port 0x77
falls through to the unmapped fallback and returns 0xFF (the source tests
`addr >= 0x70 && addr < 0x77`), while a write to port 0x77 is still routed
to the FDC handler with sub-address 7. -/
theorem fdc_port_77_read_unmapped :
    io_read fdcEnv plainMachine 0x70 = 0x42 ∧
    io_read fdcEnv plainMachine 0x76 = 0x42 ∧
    io_read fdcEnv plainMachine 0x77 = 0xFF ∧
    fdcEnv.fdc_read (0x77 &&& 7) = 0x42 ∧
    io_write_route fdcEnv 0x77 = WTarget.fdc 7 := by decide

/-! ## PPI theorems -/

/-- Helper: `ppi_recalc` never changes the four port latches. -/
theorem ppi_recalc_fields (m : Machine) :
    (ppi_recalc m).1.port_a = m.port_a ∧ (ppi_recalc m).1.port_b = m.port_b ∧
    (ppi_recalc m).1.port_c = m.port_c ∧ (ppi_recalc m).1.port_ctl = m.port_ctl := by
  unfold ppi_recalc
  refine ⟨?_, ?_, ?_, ?_⟩ <;>
    (dsimp only; split) <;> first
      | rfl
      | (split <;> first | rfl | (split <;> rfl))

/-- Bit `i` of the single-bit mask `1 <<< n`. -/
theorem testBit_one_shiftLeft (n i : Nat) : (1 <<< n).testBit i = decide (n = i) := by
  rw [Nat.one_shiftLeft, Nat.testBit_two_pow]

/-- Bit `i < 8` of the byte mask `0xFF ^^^ (1 <<< idx)` used by the
set/reset command. -/
theorem testBit_byte_mask (idx i : Nat) (hi : i < 8) :
    ((0xFF : Nat) ^^^ (1 <<< idx)).testBit i = !decide (idx = i) := by
  have h255 : (0xFF : Nat) = 2 ^ 8 - 1 := by norm_num
  rw [Nat.testBit_xor, testBit_one_shiftLeft, h255, Nat.testBit_two_pow_sub_one]
  simp [hi]

/-- C6: a write of `v` to PPI sub-address 3 with bit 7 set replaces the
control register and leaves ports A, B, C unchanged; with bit 7 clear it
sets bit `(v >>> 1) &&& 7` of port C to bit 0 of `v`, every other bit of
port C and ports A, B and the control register being unchanged. -/
theorem ppi_control_write (m : Machine) (v : Nat) (_hv : v < 256) :
    (v &&& 0x80 ≠ 0 →
      (ppi_write m 3 v).1.port_ctl = v ∧
      (ppi_write m 3 v).1.port_a = m.port_a ∧
      (ppi_write m 3 v).1.port_b = m.port_b ∧
      (ppi_write m 3 v).1.port_c = m.port_c) ∧
    (v &&& 0x80 = 0 →
      (ppi_write m 3 v).1.port_ctl = m.port_ctl ∧
      (ppi_write m 3 v).1.port_a = m.port_a ∧
      (ppi_write m 3 v).1.port_b = m.port_b ∧
      ∀ i, i < 8 →
        (ppi_write m 3 v).1.port_c.testBit i =
          if i = (v >>> 1) &&& 7 then decide (v &&& 1 = 1)
          else m.port_c.testBit i) := by
  constructor
  · intro h
    simp only [ppi_write, if_pos h]
    exact ⟨(ppi_recalc_fields _).2.2.2, (ppi_recalc_fields _).1,
      (ppi_recalc_fields _).2.1, (ppi_recalc_fields _).2.2.1⟩
  · intro h
    have hno : ¬(v &&& 0x80 ≠ 0) := by simp [h]
    simp only [ppi_write, if_neg hno]
    refine ⟨(ppi_recalc_fields _).2.2.2, (ppi_recalc_fields _).1,
      (ppi_recalc_fields _).2.1, ?_⟩
    intro i hi
    rw [(ppi_recalc_fields _).2.2.1]
    have hidx8 : (v >>> 1) &&& 7 < 8 :=
      lt_of_le_of_lt Nat.and_le_right (by norm_num)
    have hmaskbit := testBit_byte_mask ((v >>> 1) &&& 7) i hi
    by_cases hb : v &&& 1 ≠ 0
    · have hb1 : v &&& 1 = 1 := by
        have := Nat.and_le_right (n := v) (m := 1)
        omega
      rw [if_pos hb, Nat.testBit_or, Nat.testBit_and, hmaskbit,
        testBit_one_shiftLeft, hb1]
      by_cases hii : i = (v >>> 1) &&& 7
      · rw [if_pos hii, hii]
        simp
      · have hni : decide ((v >>> 1) &&& 7 = i) = false :=
          decide_eq_false (fun hx => hii hx.symm)
        rw [if_neg hii, hni]
        simp
    · have hb0 : v &&& 1 = 0 := by omega
      rw [if_neg hb, Nat.testBit_and, hmaskbit, hb0]
      by_cases hii : i = (v >>> 1) &&& 7
      · rw [if_pos hii, hii]
        simp
      · have hni : decide ((v >>> 1) &&& 7 = i) = false :=
          decide_eq_false (fun hx => hii hx.symm)
        rw [if_neg hii, hni]
        simp

/-- C6 witness: writing 0x09 (bit 7 clear, bit index 4, value 1) to
sub-address 3 sets bit 4 of port C and leaves the rest alone. -/
theorem ppi_control_write_witness :
    (0x09 : Nat) < 256 ∧
    (0x09 : Nat) &&& 0x80 = 0 ∧
    (ppi_write plainMachine 3 0x09).1.port_c.testBit 4 = true ∧
    (ppi_write plainMachine 3 0x09).1.port_c.testBit 5 =
      plainMachine.port_c.testBit 5 ∧
    (ppi_write plainMachine 3 0x09).1.port_ctl = plainMachine.port_ctl := by
  have h := ppi_control_write plainMachine 0x09 (by decide)
  have h2 := h.2 (by decide)
  refine ⟨by decide, by decide, ?_, ?_, h2.1⟩
  · have h4 := h2.2.2.2 4 (by decide)
    simpa using h4
  · have h5 := h2.2.2.2 5 (by decide)
    simpa using h5

/-- The chip-select contract of `ppi_recalc` on any machine with an SD card
attached: the cache ends equal to the current select, and exactly the
non-zero→zero transition fires `lower`, exactly the zero→non-zero one fires
`raise`. -/
theorem ppi_recalc_claim (m' : Machine) (hsd : m'.sdcard = true) :
    ((ppi_recalc m').1.old_cs = (ppi_recalc m').1.port_c &&& 7) ∧
    (m'.old_cs ≠ 0 → m'.port_c &&& 7 = 0 → (ppi_recalc m').2 = [CSEvent.lower]) ∧
    (m'.old_cs = 0 → m'.port_c &&& 7 ≠ 0 → (ppi_recalc m').2 = [CSEvent.raise]) ∧
    (m'.old_cs ≠ 0 → m'.port_c &&& 7 ≠ 0 → (ppi_recalc m').2 = []) ∧
    (m'.old_cs = 0 → m'.port_c &&& 7 = 0 → (ppi_recalc m').2 = []) := by
  unfold ppi_recalc
  dsimp only
  by_cases hch : m'.port_c &&& 7 = m'.old_cs
  · rw [if_neg (by simp [hch])]
    exact ⟨hch.symm, fun h0 hz => absurd (hch ▸ hz) h0,
      fun h0 hz => absurd (hch.symm ▸ h0) hz,
      fun _ _ => rfl, fun _ _ => rfl⟩
  · rw [if_pos ⟨hsd, hch⟩]
    by_cases hold : m'.old_cs = 0
    · rw [if_pos hold]
      exact ⟨rfl, fun h0 _ => absurd hold h0, fun _ _ => rfl,
        fun h0 _ => absurd hold h0, fun _ hz => absurd (hold ▸ hch) (by simp [hz, hold])⟩
    · rw [if_neg hold]
      by_cases hnew : m'.port_c &&& 7 = 0
      · rw [if_pos hnew]
        exact ⟨rfl, fun _ _ => rfl, fun h0 _ => absurd h0 hold,
          fun _ hz => absurd hnew hz, fun h0 _ => absurd h0 hold⟩
      · rw [if_neg hnew]
        exact ⟨rfl, fun _ hz => absurd hz hnew, fun h0 _ => absurd h0 hold,
          fun _ _ => rfl, fun h0 _ => absurd h0 hold⟩

/-- C7: with an SD card attached, every PPI write updates the cached
chip-select to the new low-3-bit value of port C, and fires exactly one
`lower` event on a non-zero→zero transition, exactly one `raise` event on a
zero→non-zero transition, and no event when the value stays non-zero, or
stays zero, or is unchanged. -/
theorem ppi_chip_select_transitions (m : Machine) (addr val : Nat)
    (hsd : m.sdcard = true) :
    ((ppi_write m addr val).1.old_cs = (ppi_write m addr val).1.port_c &&& 7) ∧
    (m.old_cs ≠ 0 → (ppi_write m addr val).1.port_c &&& 7 = 0 →
      (ppi_write m addr val).2 = [CSEvent.lower]) ∧
    (m.old_cs = 0 → (ppi_write m addr val).1.port_c &&& 7 ≠ 0 →
      (ppi_write m addr val).2 = [CSEvent.raise]) ∧
    (m.old_cs ≠ 0 → (ppi_write m addr val).1.port_c &&& 7 ≠ 0 →
      (ppi_write m addr val).2 = []) ∧
    (m.old_cs = 0 → (ppi_write m addr val).1.port_c &&& 7 = 0 →
      (ppi_write m addr val).2 = []) := by
  have base : ∀ m' : Machine, m'.sdcard = true → m'.old_cs = m.old_cs →
      ((ppi_recalc m').1.old_cs = (ppi_recalc m').1.port_c &&& 7) ∧
      (m.old_cs ≠ 0 → (ppi_recalc m').1.port_c &&& 7 = 0 →
        (ppi_recalc m').2 = [CSEvent.lower]) ∧
      (m.old_cs = 0 → (ppi_recalc m').1.port_c &&& 7 ≠ 0 →
        (ppi_recalc m').2 = [CSEvent.raise]) ∧
      (m.old_cs ≠ 0 → (ppi_recalc m').1.port_c &&& 7 ≠ 0 →
        (ppi_recalc m').2 = []) ∧
      (m.old_cs = 0 → (ppi_recalc m').1.port_c &&& 7 = 0 →
        (ppi_recalc m').2 = []) := by
    intro m' hsd' hoc
    have hpc : (ppi_recalc m').1.port_c = m'.port_c := (ppi_recalc_fields m').2.2.1
    have h := ppi_recalc_claim m' hsd'
    rw [hpc]
    exact ⟨(ppi_recalc_fields m').2.2.1 ▸ h.1, hoc ▸ h.2.1, hoc ▸ h.2.2.1,
      hoc ▸ h.2.2.2.1, hoc ▸ h.2.2.2.2⟩
  rcases addr with _ | _ | _ | _ | n
  · exact base { m with port_a := val } hsd rfl
  · exact base { m with port_b := val } hsd rfl
  · exact base { m with port_c := val } hsd rfl
  · show _ ∧ _
    simp only [ppi_write]
    by_cases hv : val &&& 0x80 ≠ 0
    · rw [if_pos hv]
      exact base { m with port_ctl := val } hsd rfl
    · rw [if_neg hv]
      exact base _ hsd rfl
  · exact base m hsd rfl

/-- C7 witness: a write of port C taking the select from 3 to 0 fires
exactly one `lower` event and updates the cache. -/
theorem ppi_chip_select_witness :
    ({ plainMachine with old_cs := 3, sdcard := true } : Machine).old_cs ≠ 0 ∧
    (ppi_write { plainMachine with old_cs := 3, sdcard := true } 2 0xF8).1.port_c &&& 7 = 0 ∧
    (ppi_write { plainMachine with old_cs := 3, sdcard := true } 2 0xF8).2 =
      [CSEvent.lower] ∧
    (ppi_write { plainMachine with old_cs := 3, sdcard := true } 2 0xF8).1.old_cs =
      (ppi_write { plainMachine with old_cs := 3, sdcard := true } 2 0xF8).1.port_c &&& 7 := by
  have h := ppi_chip_select_transitions
    { plainMachine with old_cs := 3, sdcard := true } 2 0xF8 rfl
  exact ⟨by decide, by decide, h.2.1 (by decide) (by decide), h.1⟩

/-! ## RETI fetch-sequence detector theorems -/

/-- C3 counterexample: with the detector idle and an interrupt live, an
opcode-fetched 0xED followed by 0x4D delivered as a NON-fetch read still
fires the RETI event (the 0x4D comparison in `mem_read` sits outside the
`cpu_z180.M1` test), contrary to the claim that it does not fire. -/
theorem reti_fires_on_nonfetch_4d :
    (mem_read_fsm (mem_read_fsm ⟨0, 1, 0⟩ true 0xED) false 0x4D).polls = 1 ∧
    (mem_read_fsm (mem_read_fsm ⟨0, 1, 0⟩ true 0xED) false 0x4D).live_irq = 0 := by
  decide

/-- C3 amended: from the idle detector state, an opcode-fetched 0xED
followed by a 0x4D read of either fetch class fires the RETI event exactly
once, clearing `live_irq` and re-polling the controller; what requires an
opcode fetch is the 0xED — a non-fetch 0xED arms nothing, so the following
0x4D does not fire. -/
theorem reti_sequence_any_second_class (s : FetchState) (m1b : Bool)
    (h : s.rstate = 0) :
    (mem_read_fsm s true 0xED).polls = s.polls ∧
    (mem_read_fsm s true 0xED).rstate = 1 ∧
    (mem_read_fsm (mem_read_fsm s true 0xED) m1b 0x4D).polls = s.polls + 1 ∧
    (mem_read_fsm (mem_read_fsm s true 0xED) m1b 0x4D).live_irq = 0 ∧
    (mem_read_fsm (mem_read_fsm s true 0xED) m1b 0x4D).rstate = 0 ∧
    (mem_read_fsm (mem_read_fsm s false 0xED) m1b 0x4D).polls = s.polls := by
  obtain ⟨rs, li, po⟩ := s
  simp only at h
  subst h
  simp [mem_read_fsm, reti_event]

/-- C3 witness: the amended theorem at a concrete armed-and-live state with
the second byte delivered as a non-fetch read. -/
theorem reti_sequence_witness :
    (⟨0, 1, 0⟩ : FetchState).rstate = 0 ∧
    (mem_read_fsm (mem_read_fsm ⟨0, 1, 0⟩ true 0xED) false 0x4D).polls = 0 + 1 :=
  ⟨by decide, (reti_sequence_any_second_class ⟨0, 1, 0⟩ false (by decide)).2.2.1⟩

/-- C10 counterexample: after an opcode-fetched 0xED, an opcode-fetched
prefix byte 0xDD does NOT reset the detector to idle — it parks it in the
suppressed state 2. -/
theorem fetched_dd_after_ed_not_idle :
    (mem_read_fsm (mem_read_fsm ⟨0, 0, 0⟩ true 0xED) true 0xDD).rstate = 2 := by
  decide

/-- C10 amended: after an opcode-fetched 0xED (detector state 1), any
intervening read of a byte other than 0x4D — fetch or non-fetch — prevents
the RETI event from firing then and on a following 0x4D; the detector
returns to idle (state 0) unless the byte is an opcode-fetched DD/FD/CB
prefix, which parks it in the suppressed state 2, from which a following
0x4D also does not fire. -/
theorem intervening_read_blocks_reti (s : FetchState) (m1b m1c : Bool)
    (b : Nat) (hs : s.rstate = 1) (hb : b ≠ 0x4D) :
    (mem_read_fsm s m1b b).polls = s.polls ∧
    (mem_read_fsm s m1b b).rstate =
      (if m1b = true ∧ (b = 0xDD ∨ b = 0xFD ∨ b = 0xCB) then 2 else 0) ∧
    (mem_read_fsm (mem_read_fsm s m1b b) m1c 0x4D).polls = s.polls := by
  obtain ⟨rs, li, po⟩ := s
  simp only at hs
  subst hs
  by_cases h1 : m1b = true ∧ (b = 0xDD ∨ b = 0xFD ∨ b = 0xCB)
  · simp [mem_read_fsm, h1]
  · have h2 : ¬(m1b = true ∧ b = 0xED ∧ (1 : Nat) = 0) := by
      rintro ⟨-, -, h⟩
      exact absurd h (by decide)
    have h3 : ¬(b = 0x4D ∧ (1 : Nat) = 1) := fun hx => hb hx.1
    simp [mem_read_fsm, h1, h2, h3, hb]

/-- C10 witness: the amended theorem at a concrete armed state with an
intervening non-fetch read of byte 0x00. -/
theorem intervening_read_witness :
    (⟨1, 0, 0⟩ : FetchState).rstate = 1 ∧ (0x00 : Nat) ≠ 0x4D ∧
    (mem_read_fsm (mem_read_fsm ⟨1, 0, 0⟩ false 0x00) true 0x4D).polls = 0 :=
  ⟨by decide, by decide,
    (intervening_read_blocks_reti ⟨1, 0, 0⟩ false true 0x00 (by decide)
      (by decide)).2.2⟩

/-! ## Scheduler theorems -/

/-- C8: in every iteration of the cycle loop, the DMA engine is offered
cycles first; the CPU executes exactly in the iterations where DMA consumed
zero cycles, and an iteration with non-zero DMA consumption charges no CPU
cycles. -/
theorem dma_first_cpu_only_when_idle (steps : List ExtStep) (states : Nat)
    (it : TickIter) (hmem : it ∈ runSliceTrace steps states) :
    (it.cpuRan = true ↔ it.dmaUsed = 0) ∧ (it.cpuRan = false → it.cpuUsed = 0) := by
  induction steps generalizing states with
  | nil => simp [runSliceTrace] at hmem
  | cons e rest ih =>
    unfold runSliceTrace at hmem
    by_cases hst : states < tstate_steps
    · rw [if_pos hst] at hmem
      by_cases hd : e.dma ≠ 0
      · rw [if_pos hd] at hmem
        rcases List.mem_cons.mp hmem with hit | hit
        · subst hit
          exact ⟨by simpa using hd, fun _ => rfl⟩
        · exact ih _ hit
      · rw [if_neg hd] at hmem
        rcases List.mem_cons.mp hmem with hit | hit
        · subst hit
          exact ⟨by simp, by simp⟩
        · exact ih _ hit
    · rw [if_neg hst] at hmem
      simp at hmem

/-- C8 witness: a concrete two-iteration slice — a DMA-consuming iteration
without CPU execution, followed by a CPU iteration after DMA reported
zero. -/
theorem dma_first_witness :
    ((⟨300, false, 0⟩ : TickIter) ∈
      runSliceTrace [⟨300, cpuNop⟩, ⟨0, ⟨100, false, false, false, false⟩⟩] 0) ∧
    ((⟨0, true, 100⟩ : TickIter) ∈
      runSliceTrace [⟨300, cpuNop⟩, ⟨0, ⟨100, false, false, false, false⟩⟩] 0) ∧
    ((⟨300, false, 0⟩ : TickIter).cpuRan = false → (⟨300, false, 0⟩ : TickIter).cpuUsed = 0) ∧
    ((⟨0, true, 100⟩ : TickIter).cpuRan = true ↔
        (⟨0, true, 100⟩ : TickIter).dmaUsed = 0) := by
  refine ⟨by decide, by decide, ?_, ?_⟩
  · exact (dma_first_cpu_only_when_idle
      [⟨300, cpuNop⟩, ⟨0, ⟨100, false, false, false, false⟩⟩] 0
      ⟨300, false, 0⟩ (by decide)).2
  · exact (dma_first_cpu_only_when_idle
      [⟨300, cpuNop⟩, ⟨0, ⟨100, false, false, false, false⟩⟩] 0
      ⟨0, true, 100⟩ (by decide)).1

/-- C4 counterexample: a complete minor tick elapses (DMA consumes the whole
737-cycle quantum) while the recalculation flag is set and no interrupt is
live, yet no controller re-poll happens and the flag is untouched — the
scheduler does not check the flag at minor-tick granularity. -/
theorem minor_tick_no_recalc_check :
    ((minorTick [dmaOnlyStep] false 0 ⟨true, false, false, false, 0⟩).2.1).polls = 0 ∧
    ((minorTick [dmaOnlyStep] false 0 ⟨true, false, false, false, 0⟩).2.1).int_recalc
      = true := by
  decide

/-- Helper: `runSlice` does not touch the scheduler flags while DMA keeps consuming
non-zero cycle counts (the CPU never runs). -/
theorem runSlice_dma_only (steps : List ExtStep) (states : Nat) (s : Sched)
    (h : ∀ e ∈ steps, e.dma ≠ 0) : (runSlice steps states s).2.1 = s := by
  induction steps generalizing states with
  | nil => rfl
  | cons e rest ih =>
    unfold runSlice
    by_cases hst : states < tstate_steps
    · rw [if_pos hst, if_pos (h e (List.mem_cons_self e rest))]
      exact ih _ (fun e' he' => h e' (List.mem_cons_of_mem e he'))
    · rw [if_neg hst]

/-- With no external recalculation requests and only DMA activity, the
whole minor-tick phase leaves the scheduler flags untouched: the scheduler
itself never reads or clears the recalculation flag during minor ticks. -/
theorem tickPhase_quiet (oracles : List (List ExtStep × Bool)) :
    ∀ (states : Nat) (s : Sched),
      (∀ o ∈ oracles, o.2 = false ∧ ∀ e ∈ o.1, e.dma ≠ 0) →
      (tickPhase oracles states s).2 = s := by
  induction oracles with
  | nil => intro states s _; rfl
  | cons o rest ih =>
    intro states s hq
    have ho := hq o (List.mem_cons_self o rest)
    unfold tickPhase minorTick
    dsimp only
    rw [runSlice_dma_only o.1 states s ho.2,
      if_neg (show ¬(o.2 = true) by simp [ho.1])]
    exact ih _ _ (fun o' ho' => hq o' (List.mem_cons_of_mem o ho'))

/-- C4 amended: the scheduler services the recalculation flag once per MAJOR
tick, not per minor tick: across a whole minor-tick phase with only DMA
activity and no external recalculation requests the flags are untouched; the
major tick ends with exactly one pass of the `if (int_recalc)` block, which
re-polls the controller exactly when no interrupt is live, and clears the
flag exactly when it was set and neither IFF1 nor IFF2 is set. -/
theorem recalc_serviced_once_per_major_tick
    (oracles : List (List ExtStep × Bool)) (states : Nat) (s : Sched)
    (hq : ∀ o ∈ oracles, o.2 = false ∧ ∀ e ∈ o.1, e.dma ≠ 0) :
    (tickPhase oracles states s).2 = s ∧
    (majorTick oracles states s).2 = recalcService s ∧
    (∀ t : Sched, t.int_recalc = true → t.live_irq = false →
      (recalcService t).polls = t.polls + 1) ∧
    (∀ t : Sched, t.int_recalc = true → t.live_irq = true →
      (recalcService t).polls = t.polls) ∧
    (∀ t : Sched, t.int_recalc = false → recalcService t = t) ∧
    (∀ t : Sched, (recalcService t).int_recalc =
      (t.int_recalc && (t.iff1 || t.iff2))) := by
  have hphase := tickPhase_quiet oracles states s hq
  refine ⟨hphase, ?_, ?_, ?_, ?_, ?_⟩
  · unfold majorTick
    dsimp only
    rw [hphase]
  · intro t h1 h2
    obtain ⟨ir, li, f1, f2, po⟩ := t
    simp only at h1 h2
    subst h1; subst h2
    cases f1 <;> cases f2 <;> simp [recalcService]
  · intro t h1 h2
    obtain ⟨ir, li, f1, f2, po⟩ := t
    simp only at h1 h2
    subst h1; subst h2
    cases f1 <;> cases f2 <;> simp [recalcService]
  · intro t h1
    obtain ⟨ir, li, f1, f2, po⟩ := t
    simp only at h1
    subst h1
    simp [recalcService]
  · intro t
    obtain ⟨ir, li, f1, f2, po⟩ := t
    cases ir <;> cases li <;> cases f1 <;> cases f2 <;> simp [recalcService]

/-- C4 witness: a concrete quiet major tick from a state with the flag set
and no live interrupt — one re-poll at the major-tick boundary. -/
theorem recalc_serviced_witness :
    (tickPhase [([dmaOnlyStep], false)] 0 ⟨true, false, false, false, 0⟩).2 =
      ⟨true, false, false, false, 0⟩ ∧
    (recalcService ⟨true, false, false, false, 0⟩).polls = 0 + 1 := by
  have h := recalc_serviced_once_per_major_tick [([dmaOnlyStep], false)] 0
    ⟨true, false, false, false, 0⟩ (by decide)
  exact ⟨h.1, h.2.2.1 ⟨true, false, false, false, 0⟩ rfl rfl⟩
